import Mathlib

/-!
A shallow embedding of the job-tracker client (`src/App.jsx`) and proofs
about its form normalization, its filter/sort/paginate query pipeline,
its cache staleness policy at startup, its remote-sync reconciliation,
and its attachment deletion sequence.

JavaScript strings are modelled as lists of characters, nullable record
columns as `Option`, and the stable `Array.prototype.sort` mandated by the
ECMAScript specification as `List.mergeSort` over the boolean order induced
by the comparator.  Network calls are modelled by passing their result
(success value or error) as an explicit argument to the state transition
they drive.
-/

/-- JavaScript strings, modelled as lists of characters. -/
abbrev Str := List Char

/-- Model of `String.prototype.toLowerCase`, applied characterwise. -/
def lowerStr (s : Str) : Str := s.map Char.toLower

/-- Model of `String.prototype.trim`: strip leading and trailing whitespace. -/
def jsTrim (s : Str) : Str :=
  ((s.dropWhile Char.isWhitespace).reverse.dropWhile Char.isWhitespace).reverse

/-- Model of `hay.includes(sub)`: `sub` occurs contiguously inside `hay`. -/
def strIncludes (hay sub : Str) : Bool := decide (sub <:+: hay)

/-- A row of the `jobs` table as the client uses it: text columns and the
applied date are nullable, `applied` is a boolean column. -/
structure Job where
  id : Nat
  company : Option Str := none
  position : Option Str := none
  source_url : Option Str := none
  date_found : Option Str := none
  description : Option Str := none
  applied : Bool := false
  applied_date : Option Str := none
  status : Option Str := none
  created_at : Nat := 0
deriving DecidableEq

/-- A row of the `job_attachments` table (the fields the client reads). -/
structure Attachment where
  id : Nat
  job_id : Nat
  file_path : Str := []
  file_name : Str := []
deriving DecidableEq

/-- The add/edit form state: every text field is a plain string (`""` when
empty), `applied` mirrors the checkbox. -/
structure JobForm where
  company : Str := []
  position : Str := []
  source_url : Str := []
  date_found : Str := []
  description : Str := []
  applied : Bool := false
  applied_date : Str := []
  status : Str := "not_applied".data
deriving DecidableEq

/-- The row payload `handleSubmit` sends to the store: a spread of the form
in which `applied_date` may have been overwritten with `null`. -/
structure JobPayload where
  company : Str
  position : Str
  source_url : Str
  date_found : Str
  description : Str
  applied : Bool
  applied_date : Option Str
  status : Str
deriving DecidableEq

/-- The payload normalization in `handleSubmit`: spread the form, then if
`applied` is false overwrite `applied_date` with `null` and `status` with
`"not_applied"`. -/
def buildPayload (f : JobForm) : JobPayload :=
  let p : JobPayload :=
    { company := f.company, position := f.position, source_url := f.source_url,
      date_found := f.date_found, description := f.description,
      applied := f.applied, applied_date := some f.applied_date,
      status := f.status }
  if !p.applied then { p with applied_date := none, status := "not_applied".data }
  else p

/-- The handler `handleSubmit`: the required-field check (company, position, date found
must be non-empty, JavaScript falsiness of `""`), then the normalized
payload handed to the insert/update request; `none` means no request is
sent. -/
def handleSubmit (f : JobForm) : Option JobPayload :=
  if f.company.isEmpty || f.position.isEmpty || f.date_found.isEmpty then none
  else some (buildPayload f)

/-- The normalized search term, `searchTerm.trim().toLowerCase()`. -/
def normalizedSearch (searchTerm : Str) : Str := lowerStr (jsTrim searchTerm)

/-- The predicate of the `jobs.filter` callback, for an already normalized
search term `ns`: free-text search over four fields, the status filter
(status defaults to `"not_applied"`), and the applied filter. -/
def jobMatches (ns statusFilter appliedFilter : Str) (job : Job) : Bool :=
  let matchesSearch : Bool :=
    ns.isEmpty ||
    strIncludes (lowerStr (job.company.getD [])) ns ||
    strIncludes (lowerStr (job.position.getD [])) ns ||
    strIncludes (lowerStr (job.description.getD [])) ns ||
    strIncludes (lowerStr (job.source_url.getD [])) ns
  let jobStatus := job.status.getD "not_applied".data
  let matchesStatus : Bool := statusFilter == "all".data || jobStatus == statusFilter
  let matchesApplied : Bool :=
    if appliedFilter == "applied".data then job.applied
    else if appliedFilter == "not_applied_only".data then !job.applied
    else true
  matchesSearch && matchesStatus && matchesApplied

/-- The filter stage `filteredJobs`. -/
def filteredJobs (jobs : List Job) (searchTerm statusFilter appliedFilter : Str) : List Job :=
  jobs.filter (jobMatches (normalizedSearch searchTerm) statusFilter appliedFilter)

/-- The keep condition of the filter stage as the specification words it
(for comparison against the source-derived `jobMatches`). -/
def specFilterKeeps (searchTerm statusFilter appliedFilter : Str) (job : Job) : Prop :=
  (normalizedSearch searchTerm = [] ∨
    normalizedSearch searchTerm <:+: lowerStr (job.company.getD []) ∨
    normalizedSearch searchTerm <:+: lowerStr (job.position.getD []) ∨
    normalizedSearch searchTerm <:+: lowerStr (job.description.getD []) ∨
    normalizedSearch searchTerm <:+: lowerStr (job.source_url.getD [])) ∧
  (statusFilter = "all".data ∨ job.status.getD "not_applied".data = statusFilter) ∧
  (appliedFilter = "all".data ∨
    (appliedFilter = "applied".data ∧ job.applied = true) ∨
    (appliedFilter = "not_applied_only".data ∧ job.applied = false))

/-- A value returned by `getSortValue`: a number (for the `applied` key) or
a string (for every other key). -/
inductive SortValue where
  | num (n : Int)
  | str (s : Str)
deriving DecidableEq

/-- The helper `getSortValue`: the switch over the active sort key. -/
def getSortValue (sortKey : Str) (job : Job) : SortValue :=
  if sortKey == "company".data then .str (lowerStr (job.company.getD []))
  else if sortKey == "position".data then .str (lowerStr (job.position.getD []))
  else if sortKey == "status".data then .str (lowerStr (job.status.getD "not_applied".data))
  else if sortKey == "applied".data then .num (if job.applied then 1 else 0)
  else .str (job.date_found.getD [])

/-- Three-way lexicographic comparison of character lists: the model of
`String.prototype.localeCompare` (negative, zero, or positive). -/
def lexCompare : Str → Str → Int
  | [], [] => 0
  | [], _ :: _ => -1
  | _ :: _, [] => 1
  | a :: as, b :: bs => if a = b then lexCompare as bs else if a < b then -1 else 1

/-- Model of `String(v)`: stringification of a sort value. -/
def jsToString : SortValue → Str
  | .num n => (toString n).data
  | .str s => s

/-- The comparator body after the `v1 === v2` short circuit: numeric
subtraction when both values are numbers, otherwise stringified
`localeCompare`. -/
def cmpBase (v w : SortValue) : Int :=
  if v = w then 0
  else
    match v, w with
    | .num x, .num y => x - y
    | x, y => lexCompare (jsToString x) (jsToString y)

/-- The comparator passed to `sort`: sort values of the two rows, `0` on
equality, otherwise the base comparison with the direction applied as a
sign flip. -/
def compareJobs (sortKey sortDirection : Str) (a b : Job) : Int :=
  let v1 := getSortValue sortKey a
  let v2 := getSortValue sortKey b
  if v1 = v2 then 0
  else
    let result : Int :=
      match v1, v2 with
      | .num x, .num y => x - y
      | x, y => lexCompare (jsToString x) (jsToString y)
    if sortDirection == "asc".data then result else -result

/-- The boolean "does not come after" order induced by the comparator.
`Array.prototype.sort` is stable (ECMAScript 2019 and later), so sorting
with a consistent comparator is sorting stably by this order. -/
def jobLe (sortKey sortDirection : Str) (a b : Job) : Bool :=
  decide (compareJobs sortKey sortDirection a b ≤ 0)

/-- The sort stage `sortedJobs = [...filteredJobs].sort(comparator)`,
modelled as a stable merge sort. -/
def sortedJobs (jobs : List Job)
    (searchTerm statusFilter appliedFilter sortKey sortDirection : Str) : List Job :=
  (filteredJobs jobs searchTerm statusFilter appliedFilter).mergeSort
    (jobLe sortKey sortDirection)

/-- The page count `totalPages = Math.max(1, Math.ceil(totalItems / pageSize))` over
naturals (`(n + ps - 1) / ps` is the ceiling of `n / ps` for `ps > 0`). -/
def totalPages (totalItems pageSize : Nat) : Nat :=
  max 1 ((totalItems + pageSize - 1) / pageSize)

/-- The page slice `sortedJobs.slice(startIndex, startIndex + pageSize)` with
`startIndex = (page - 1) * pageSize` for a 1-based page number. -/
def visibleSlice (l : List Job) (page pageSize : Nat) : List Job :=
  (l.drop ((page - 1) * pageSize)).take pageSize

/-- Ceiling division written the way the specification states it. -/
def ceilDivSpec (n ps : Nat) : Nat :=
  if n % ps = 0 then n / ps else n / ps + 1

/-- The slice of component state that `handleSort`, the mobile sort
select, and the direction toggle button touch. -/
structure SortPageState where
  sortKey : Str
  sortDirection : Str
  currentPage : Nat
deriving DecidableEq

/-- The handler `handleSort(key)` (table header click): always back to page 1; same
column toggles the direction, a new column is selected ascending. -/
def handleSort (key : Str) (s : SortPageState) : SortPageState :=
  if s.sortKey == key then
    { s with currentPage := 1,
             sortDirection := if s.sortDirection == "asc".data then "desc".data else "asc".data }
  else
    { s with currentPage := 1, sortKey := key, sortDirection := "asc".data }

/-- The mobile sort select: `onChange` only calls `setSortKey`. -/
def selectSortKey (key : Str) (s : SortPageState) : SortPageState :=
  { s with sortKey := key }

/-- The direction toggle button: `onClick` only flips the direction. -/
def toggleSortDirection (s : SortPageState) : SortPageState :=
  { s with sortDirection := if s.sortDirection == "asc".data then "desc".data else "asc".data }

/-- The jobs-collection slice of component state touched by `fetchJobs`:
the in-memory list, the cached slot, the refresh stamp, the loading flag. -/
structure SyncState where
  jobs : List Job
  cachedJobs : Option (List Job)
  lastFetch : Option Nat
  loading : Bool
deriving DecidableEq

/-- The effect of one `fetchJobs()` run, with the settled remote result as
input.  On error only the console log happens (and the trailing
`setLoading(false)`); on success the list (`data || []`) replaces the
in-memory collection and the cached slot, and the refresh instant is
stamped. -/
def fetchJobs (result : Except Unit (Option (List Job))) (now : Nat)
    (s : SyncState) : SyncState :=
  match result with
  | .error _ => { s with loading := false }
  | .ok data =>
      let list := data.getD []
      { jobs := list, cachedJobs := some list, lastFetch := some now, loading := false }

/-- The shape of a remote table read: which table, and the ordering the
client requests from the store. -/
structure QueryDesc where
  table : Str
  orderKey : Str
  ascending : Bool
deriving DecidableEq

/-- The read issued by `fetchJobs`: all rows of `jobs`, ordered by
`created_at` descending. -/
def fetchJobsQuery : QueryDesc :=
  { table := "jobs".data, orderKey := "created_at".data, ascending := false }

/-- JavaScript truthiness of a `localStorage.getItem` result: `null` and
the empty string are falsy. -/
def jsTruthyStr : Option Str → Bool
  | none => false
  | some s => !s.isEmpty

/-- The cache time-to-live, `5 * 60 * 1000` milliseconds. -/
def CACHE_TTL_MS : Int := 5 * 60 * 1000

/-- Primitive observable events of the startup effect, in execution
order: `setLoading` calls and the resolution of the two remote reads (each
`net` event stands for the request settling and its state/cache writes). -/
inductive Ev where
  | setLoading (b : Bool)
  | netFetchJobs
  | netFetchAttachments
deriving DecidableEq

/-- The event trace of one `fetchJobs()` call: it sets `loading` to true,
suspends on the network, and on resolution writes state and sets `loading`
to false. -/
def fetchJobsTrace : List Ev := [.setLoading true, .netFetchJobs, .setLoading false]

/-- The startup effect: hydrate from cache, then decide between a blocking
initial fetch (no cache at all), a background revalidation (stale cache;
the synchronous `setLoading(false)` runs as soon as `fetchJobs` first
suspends on the network), and no network access (fresh cache).  `cj`/`ca`
are the raw cached strings, `stamp` the parsed refresh slot
(`Number(getItem || 0)`, absent meaning `0`), `now` the current instant. -/
def startupTrace (cj ca : Option Str) (stamp : Option Nat) (now : Nat) : List Ev :=
  if !jsTruthyStr cj && !jsTruthyStr ca then
    [.setLoading true, .netFetchJobs, .setLoading false, .netFetchAttachments]
  else if (now : Int) - (stamp.getD 0 : Nat) > CACHE_TTL_MS then
    [.setLoading true, .setLoading false, .netFetchJobs, .setLoading false,
     .netFetchAttachments]
  else
    [.setLoading false]

/-- Whether a startup trace performs any network access. -/
def fetchesAnything (t : List Ev) : Bool :=
  t.contains .netFetchJobs || t.contains .netFetchAttachments

/-- Whether the view reports loaded (a `setLoading false`) strictly before
any network event settles: true exactly for the non-blocking startups. -/
def loadedBeforeNetwork (t : List Ev) : Bool :=
  (t.takeWhile fun e => !(e == Ev.netFetchJobs || e == Ev.netFetchAttachments)).contains
    (Ev.setLoading false)

/-- Cache hydration of the jobs collection at startup: a truthy slot is
parsed (`parse` models `JSON.parse`, `none` meaning it threw); on absence
or parse failure the collection keeps its initial `[]`. -/
def hydrateJobs (parse : Str → Option (List Job)) (slot : Option Str) : List Job :=
  if jsTruthyStr slot then (parse (slot.getD [])).getD [] else []

/-- Cache hydration of the attachments collection at startup. -/
def hydrateAttachments (parse : Str → Option (List Attachment))
    (slot : Option Str) : List Attachment :=
  if jsTruthyStr slot then (parse (slot.getD [])).getD [] else []

/-- The attachments slice of component state: the in-memory list and the
cached slot. -/
structure AttachState where
  attachments : List Attachment
  cachedAttachments : Option (List Attachment)
deriving DecidableEq

/-- Remote operations an attachment delete can issue, in order. -/
inductive DeleteOp where
  | removeBlob (path : Str)
  | deleteRow (id : Nat)
deriving DecidableEq

/-- The outcome of one attachment delete click: the remote operations
actually issued in order, the alert surfaced (if any), and the resulting
local state. -/
structure DeleteOutcome where
  ops : List DeleteOp
  alert : Option Str
  state : AttachState
deriving DecidableEq

/-- The attachment delete handler (identical in the table view and the
card view): remove the blob; on failure alert and stop.  Then delete the
metadata row; on failure alert and stop.  On full success drop the record
from the in-memory list and overwrite the cached slot. -/
def attachmentDelete (att : Attachment) (storageFails dbFails : Bool)
    (s : AttachState) : DeleteOutcome :=
  if storageFails then
    { ops := [.removeBlob att.file_path],
      alert := some "Failed to delete file".data, state := s }
  else if dbFails then
    { ops := [.removeBlob att.file_path, .deleteRow att.id],
      alert := some "Failed to delete attachment record".data, state := s }
  else
    let updated := s.attachments.filter fun x => x.id != att.id
    { ops := [.removeBlob att.file_path, .deleteRow att.id],
      alert := none,
      state := { attachments := updated, cachedAttachments := some updated } }

/-- The slice of component state the query pipeline and its controls read
and write. -/
structure UIState where
  jobs : List Job
  searchTerm : Str
  statusFilter : Str
  appliedFilter : Str
  sortKey : Str
  sortDirection : Str
  currentPage : Nat
  pageSize : Nat
deriving DecidableEq

/-- The initial component state (`useState` initializers). -/
def initialUIState : UIState :=
  { jobs := [], searchTerm := [], statusFilter := "all".data,
    appliedFilter := "all".data, sortKey := "applied".data,
    sortDirection := "desc".data, currentPage := 1, pageSize := 10 }

/-- User actions and data events that touch the pipeline state.  A filter,
search, or page-size action models an actual change of that input, which
also fires the page-reset effect; the net effect is folded into one
transition. -/
inductive UIAction where
  | setSearch (v : Str)
  | setStatusFilter (v : Str)
  | setAppliedFilter (v : Str)
  | setPageSize (v : Nat)
  | sortHeaderClick (k : Str)
  | selectSort (k : Str)
  | toggleDirection
  | pageFirst
  | pagePrev
  | pageNext
  | pageLast
  | fetchSuccess (data : List Job)
  | deleteJob (id : Nat)

/-- The sorted collection the pipeline derives from the current state. -/
def uiSorted (s : UIState) : List Job :=
  sortedJobs s.jobs s.searchTerm s.statusFilter s.appliedFilter s.sortKey s.sortDirection

/-- The item count `totalItems = sortedJobs.length`. -/
def totalItemsOf (s : UIState) : Nat := (uiSorted s).length

/-- The page count `totalPages` for the current state. -/
def totalPagesOf (s : UIState) : Nat := totalPages (totalItemsOf s) s.pageSize

/-- The clamp `safePage = Math.min(currentPage, totalPages)`: the effective page the
slice uses. -/
def safePageOf (s : UIState) : Nat := min s.currentPage (totalPagesOf s)

/-- One state transition per action, transcribing the handlers: filter,
search, and page-size changes reset the page to 1 (the `useEffect` on
those four inputs); the pagination buttons clamp; `fetchJobs` success
replaces the collection; a job delete filters it by identifier. -/
def stepUI : UIAction → UIState → UIState
  | .setSearch v, s => { s with searchTerm := v, currentPage := 1 }
  | .setStatusFilter v, s => { s with statusFilter := v, currentPage := 1 }
  | .setAppliedFilter v, s => { s with appliedFilter := v, currentPage := 1 }
  | .setPageSize v, s => { s with pageSize := v, currentPage := 1 }
  | .sortHeaderClick k, s =>
      if s.sortKey == k then
        { s with currentPage := 1,
                 sortDirection := if s.sortDirection == "asc".data then "desc".data else "asc".data }
      else
        { s with currentPage := 1, sortKey := k, sortDirection := "asc".data }
  | .selectSort k, s => { s with sortKey := k }
  | .toggleDirection, s =>
      { s with sortDirection := if s.sortDirection == "asc".data then "desc".data else "asc".data }
  | .pageFirst, s => { s with currentPage := 1 }
  | .pagePrev, s => { s with currentPage := max 1 (s.currentPage - 1) }
  | .pageNext, s => { s with currentPage := min (totalPagesOf s) (s.currentPage + 1) }
  | .pageLast, s => { s with currentPage := totalPagesOf s }
  | .fetchSuccess data, s => { s with jobs := data }
  | .deleteJob id, s => { s with jobs := s.jobs.filter fun j => j.id != id }

/-- Constraints the markup imposes on action payloads: the rows-per-page
select offers exactly 10, 20 and 50. -/
def ValidAction : UIAction → Prop
  | .setPageSize v => v = 10 ∨ v = 20 ∨ v = 50
  | _ => True

/-- States reachable from the initial state through valid actions. -/
inductive Reachable : UIState → Prop where
  | init : Reachable initialUIState
  | step {s : UIState} (a : UIAction) (ha : ValidAction a) (hs : Reachable s) :
      Reachable (stepUI a s)

/-- A sample form used to instantiate universally quantified theorems. -/
def sampleForm : JobForm :=
  { company := "Acme".data, position := "Dev".data,
    date_found := "2024-01-02".data, applied := false,
    applied_date := "2024-01-01".data, status := "pending".data }

/-- A sample job row. -/
def jobA : Job :=
  { id := 1, company := some "Acme".data, position := some "Dev".data,
    date_found := some "2024-01-02".data, applied := true,
    status := some "pending".data }

/-- A second sample job row with the same company as `jobA`. -/
def jobB : Job :=
  { id := 2, company := some "acme".data, position := some "QA".data,
    date_found := some "2024-03-04".data, applied := false }

/-- A sample attachment row. -/
def attA : Attachment :=
  { id := 7, job_id := 1, file_path := "u/1/cv.pdf".data, file_name := "cv.pdf".data }

/-- A sample attachments state containing `attA`. -/
def attState : AttachState :=
  { attachments := [attA], cachedAttachments := some [attA] }

/-- A sort/page state with a non-default direction and page, used to
exhibit the behaviour of the mobile sort controls. -/
def c5State : SortPageState :=
  { sortKey := "date_found".data, sortDirection := "desc".data, currentPage := 2 }

/-- A cache slot is absent or holds a non-empty string.  Every write the
client performs stores `JSON.stringify` of an array, which is never the
empty string, so reachable slots satisfy this. -/
def presentOk (slot : Option Str) : Prop := slot ≠ some []

/-- C1: for every form submission that actually sends a payload (create or
update), if the form's applied flag is false then the payload has
`applied_date = null` and `status = "not_applied"`, regardless of the
`applied_date` and `status` the form held. -/
theorem submit_unapplied_normalized (f : JobForm) (p : JobPayload)
    (hp : handleSubmit f = some p) (h : f.applied = false) :
    p.applied_date = none ∧ p.status = "not_applied".data := by
  unfold handleSubmit at hp
  split at hp
  · cases hp
  · cases hp
    simp [buildPayload, h]

/-- Witness for C1 at a concrete form with `applied = false` but a filled
`applied_date` and a non-default `status`. -/
theorem submit_unapplied_normalized_witness :
    (buildPayload sampleForm).applied_date = none ∧
    (buildPayload sampleForm).status = "not_applied".data :=
  submit_unapplied_normalized sampleForm (buildPayload sampleForm) (by decide) (by decide)

/-- C5 counterexample: selecting a different sort key through the mobile
sort select does change the active key, but leaves the direction at
`desc` and the page at 2 — it neither switches the direction to `asc` nor
resets the page to 1, refuting the claim for that user action. -/
theorem selectSortKey_no_reset_cex :
    c5State.sortKey ≠ "company".data ∧
    (selectSortKey "company".data c5State).sortKey = "company".data ∧
    ¬ (selectSortKey "company".data c5State).sortDirection = "asc".data ∧
    ¬ (selectSortKey "company".data c5State).currentPage = 1 := by decide

/-- C5 amended: the table-header sort action behaves as the claim states
(different key: ascending and page 1; same key: toggled direction and page
1), but the mobile sort select changes only the sort key and the direction
toggle button changes only the direction; neither of those resets the
page. -/
theorem handleSort_spec (s : SortPageState) (k : Str) :
    (s.sortKey ≠ k →
      handleSort k s = { sortKey := k, sortDirection := "asc".data, currentPage := 1 }) ∧
    (s.sortKey = k →
      handleSort k s =
        { s with currentPage := 1,
                 sortDirection :=
                   if s.sortDirection = "asc".data then "desc".data else "asc".data }) ∧
    (selectSortKey k s).sortDirection = s.sortDirection ∧
    (selectSortKey k s).currentPage = s.currentPage ∧
    (toggleSortDirection s).sortKey = s.sortKey ∧
    (toggleSortDirection s).currentPage = s.currentPage := by
  refine ⟨fun h => ?_, fun h => ?_, rfl, rfl, rfl, rfl⟩
  · simp [handleSort, beq_iff_eq, h]
  · simp [handleSort, beq_iff_eq, h]

/-- Witness for C5's amended claim: clicking the `company` header from
`c5State` selects it ascending on page 1. -/
theorem handleSort_spec_witness :
    handleSort "company".data c5State =
      { sortKey := "company".data, sortDirection := "asc".data, currentPage := 1 } :=
  (handleSort_spec c5State "company".data).1 (by decide)

/-- C6: one `fetchJobs` run.  On failure only the loading flag (and a
console log) change — the in-memory jobs, the cached slot and the refresh
stamp are left untouched, and nothing retries.  On success all three are
replaced: the fetched list (`data || []`) becomes the in-memory collection
and the cached slot, and the refresh instant is stamped.  The issued query
reads the `jobs` table ordered by creation timestamp descending. -/
theorem fetchJobs_spec :
    (∀ (s : SyncState) (now : Nat) (e : Unit),
        fetchJobs (.error e) now s =
          { jobs := s.jobs, cachedJobs := s.cachedJobs, lastFetch := s.lastFetch,
            loading := false }) ∧
    (∀ (s : SyncState) (now : Nat) (data : Option (List Job)),
        fetchJobs (.ok data) now s =
          { jobs := data.getD [], cachedJobs := some (data.getD []),
            lastFetch := some now, loading := false }) ∧
    fetchJobsQuery.table = "jobs".data ∧
    fetchJobsQuery.orderKey = "created_at".data ∧
    fetchJobsQuery.ascending = false :=
  ⟨fun _ _ _ => rfl, fun _ _ _ => rfl, rfl, rfl, rfl⟩

/-- C8: the attachment delete sequence.  The blob removal is always issued
first; if it fails, an alert is surfaced and neither the metadata-row
deletion nor any local change happens; if the row deletion fails, an alert
is surfaced and local state is unchanged; on full success no alert is
raised and the record is removed by identifier from the in-memory list and
the cached slot. -/
theorem attachmentDelete_spec (att : Attachment) (sF dF : Bool) (s : AttachState) :
    (attachmentDelete att sF dF s).ops.head? = some (.removeBlob att.file_path) ∧
    (sF = true →
      attachmentDelete att sF dF s =
        { ops := [.removeBlob att.file_path],
          alert := some "Failed to delete file".data, state := s }) ∧
    (sF = false → dF = true →
      attachmentDelete att sF dF s =
        { ops := [.removeBlob att.file_path, .deleteRow att.id],
          alert := some "Failed to delete attachment record".data, state := s }) ∧
    (sF = false → dF = false →
      attachmentDelete att sF dF s =
        { ops := [.removeBlob att.file_path, .deleteRow att.id],
          alert := none,
          state := { attachments := s.attachments.filter fun x => x.id != att.id,
                     cachedAttachments :=
                       some (s.attachments.filter fun x => x.id != att.id) } }) := by
  cases sF <;> cases dF <;> simp [attachmentDelete]

/-- Witness for C8 at a concrete attachment and state, in the case where
the blob removal fails: one remote operation, an alert, no state change. -/
theorem attachmentDelete_spec_witness :
    attachmentDelete attA true false attState =
      { ops := [.removeBlob attA.file_path],
        alert := some "Failed to delete file".data, state := attState } :=
  (attachmentDelete_spec attA true false attState).2.1 rfl

/-- For a slot that is never the stored empty string, JavaScript falsiness
coincides with absence. -/
theorem jsTruthyStr_eq_false_iff (slot : Option Str) (h : presentOk slot) :
    jsTruthyStr slot = false ↔ slot = none := by
  cases slot with
  | none => simp [jsTruthyStr]
  | some s =>
      simp only [jsTruthyStr, Bool.not_eq_false', List.isEmpty_iff,
        reduceCtorEq, iff_false]
      intro hs
      exact h (by rw [hs])

/-- C7 counterexample: at startup with both cache slots absent, the event
trace is: jobs fetch settles, the view reports loaded, and only then does
the attachments fetch settle.  So the claimed blocking fetch of BOTH
collections before the view reports loaded fails on the attachments
half. -/
theorem startup_blocking_cex :
    startupTrace none none none 0 =
      [.setLoading true, .netFetchJobs, .setLoading false, .netFetchAttachments] ∧
    ((startupTrace none none none 0).takeWhile fun e =>
        !(e == Ev.setLoading false)).contains Ev.netFetchAttachments = false := by
  decide

/-- C7 amended: startup is a three-way decision.  With no cache in either
slot, a blocking fetch runs: the jobs fetch settles before the view
reports loaded, but the attachments fetch runs only after that report
(this last point corrects the claim).  With a cache older than the
5-minute threshold (age computed against a refresh stamp defaulting to 0),
the view reports loaded immediately and a background refresh of both
collections follows.  Otherwise the view reports loaded immediately and no
network access occurs. -/
theorem startup_three_way (cj ca : Option Str) (stamp : Option Nat) (now : Nat)
    (hcj : presentOk cj) (hca : presentOk ca) :
    (cj = none ∧ ca = none →
      startupTrace cj ca stamp now =
        [.setLoading true, .netFetchJobs, .setLoading false, .netFetchAttachments]) ∧
    (¬(cj = none ∧ ca = none) → (now : Int) - (stamp.getD 0 : Nat) > CACHE_TTL_MS →
      startupTrace cj ca stamp now =
        [.setLoading true, .setLoading false, .netFetchJobs, .setLoading false,
         .netFetchAttachments]) ∧
    (¬(cj = none ∧ ca = none) → ¬((now : Int) - (stamp.getD 0 : Nat) > CACHE_TTL_MS) →
      startupTrace cj ca stamp now = [.setLoading false]) := by
  have hiff : (!jsTruthyStr cj && !jsTruthyStr ca) = true ↔ (cj = none ∧ ca = none) := by
    rw [Bool.and_eq_true, Bool.not_eq_true', Bool.not_eq_true',
      jsTruthyStr_eq_false_iff cj hcj, jsTruthyStr_eq_false_iff ca hca]
  refine ⟨fun h => ?_, fun h hage => ?_, fun h hage => ?_⟩
  · unfold startupTrace
    rw [if_pos (hiff.mpr h)]
  · unfold startupTrace
    rw [if_neg (fun hc => h (hiff.mp hc)), if_pos hage]
  · unfold startupTrace
    rw [if_neg (fun hc => h (hiff.mp hc)), if_neg hage]

/-- Witness for C7's amended claim: a cached jobs slot with a refresh
stamp of 0 at instant 600001 (older than the 300000 ms threshold) yields
the stale-while-revalidate trace. -/
theorem startup_three_way_witness :
    startupTrace (some "[]".data) none (some 0) 600001 =
      [.setLoading true, .setLoading false, .netFetchJobs, .setLoading false,
       .netFetchAttachments] :=
  (startup_three_way (some "[]".data) none (some 0) 600001
    (by unfold presentOk; decide) (by unfold presentOk; decide)).2.1
    (by simp) (by decide)

/-- C10: when exactly one cache slot is present and the cache age does not
exceed the threshold, startup performs no fetch of either collection, the
collection whose slot is missing hydrates to the empty list (so nothing
repopulates it), and the blocking startup path — the one that does not
report loaded before network access — is taken only when both slots are
absent. -/
theorem startup_single_slot (cj ca : Option Str) (stamp : Option Nat) (now : Nat)
    (parseJ : Str → Option (List Job)) (parseA : Str → Option (List Attachment)) :
    (jsTruthyStr cj = true → ¬((now : Int) - (stamp.getD 0 : Nat) > CACHE_TTL_MS) →
      startupTrace cj none stamp now = [.setLoading false] ∧
      fetchesAnything (startupTrace cj none stamp now) = false ∧
      hydrateAttachments parseA none = []) ∧
    (jsTruthyStr ca = true → ¬((now : Int) - (stamp.getD 0 : Nat) > CACHE_TTL_MS) →
      startupTrace none ca stamp now = [.setLoading false] ∧
      fetchesAnything (startupTrace none ca stamp now) = false ∧
      hydrateJobs parseJ none = []) ∧
    (loadedBeforeNetwork (startupTrace cj ca stamp now) = false →
      jsTruthyStr cj = false ∧ jsTruthyStr ca = false) := by
  refine ⟨fun ht hage => ?_, fun ht hage => ?_, fun hblock => ?_⟩
  · have hc : (!jsTruthyStr cj && !jsTruthyStr (none : Option Str)) = false := by
      rw [ht]; rfl
    unfold startupTrace
    rw [if_neg (by simp [hc]), if_neg hage]
    exact ⟨rfl, rfl, rfl⟩
  · have hc : (!jsTruthyStr (none : Option Str) && !jsTruthyStr ca) = false := by
      rw [ht]; simp
    unfold startupTrace
    rw [if_neg (by simp [hc]), if_neg hage]
    exact ⟨rfl, rfl, rfl⟩
  · unfold startupTrace at hblock
    by_cases h1 : (!jsTruthyStr cj && !jsTruthyStr ca) = true
    · rcases Bool.and_eq_true .. |>.mp h1 with ⟨hj, ha⟩
      exact ⟨Bool.not_eq_true' .. |>.mp hj, Bool.not_eq_true' .. |>.mp ha⟩
    · rw [if_neg h1] at hblock
      by_cases h2 : (now : Int) - (stamp.getD 0 : Nat) > CACHE_TTL_MS
      · rw [if_pos h2] at hblock
        cases hblock.symm.trans (by decide : loadedBeforeNetwork
          [.setLoading true, .setLoading false, .netFetchJobs, .setLoading false,
           .netFetchAttachments] = true)
      · rw [if_neg h2] at hblock
        cases hblock.symm.trans (by decide : loadedBeforeNetwork
          [Ev.setLoading false] = true)

/-- Witness for C10: a fresh cached jobs slot with no attachments slot at
instant 0 performs no network access and leaves attachments empty. -/
theorem startup_single_slot_witness :
    startupTrace (some "[]".data) none (some 0) 0 = [.setLoading false] ∧
    fetchesAnything (startupTrace (some "[]".data) none (some 0) 0) = false ∧
    hydrateAttachments (fun _ => none) none = [] :=
  (startup_single_slot (some "[]".data) none (some 0) 0 (fun _ => none)
    (fun _ => none)).1 (by decide) (by decide)

/-- The page count is always at least 1. -/
theorem one_le_totalPages (n ps : Nat) : 1 ≤ totalPages n ps := le_max_left 1 _

/-- The page count of any state is at least 1. -/
theorem one_le_totalPagesOf (s : UIState) : 1 ≤ totalPagesOf s := le_max_left 1 _

/-- In every reachable state the raw current page is at least 1. -/
theorem reachable_page_pos (s : UIState) (h : Reachable s) : 1 ≤ s.currentPage := by
  induction h with
  | init => exact Nat.le_refl 1
  | step a ha hs ih =>
      cases a with
      | setSearch v => exact Nat.le_refl 1
      | setStatusFilter v => exact Nat.le_refl 1
      | setAppliedFilter v => exact Nat.le_refl 1
      | setPageSize v => exact Nat.le_refl 1
      | sortHeaderClick k =>
          simp only [stepUI]
          split
          · exact Nat.le_refl 1
          · exact Nat.le_refl 1
      | selectSort k => exact ih
      | toggleDirection => exact ih
      | pageFirst => exact Nat.le_refl 1
      | pagePrev => exact le_max_left 1 _
      | pageNext => exact le_min (one_le_totalPagesOf _) (Nat.le_add_left 1 _)
      | pageLast => exact one_le_totalPagesOf _
      | fetchSuccess data => exact ih
      | deleteJob id => exact ih

/-- C9: the effective page used for slicing always lies in
`[1, max(1, ceil(totalFiltered / pageSize))]`.  The initial page is 1;
every search, filter, and page-size change resets the page to 1; the
Previous and Next buttons clamp at 1 and at the page count respectively; a
page-only change leaves every other pipeline input unchanged; and in every
reachable state the clamped `safePage` lies in the stated interval, whose
upper end is `totalPages` of the filtered collection's size. -/
theorem safePage_in_range :
    initialUIState.currentPage = 1 ∧
    (∀ (s : UIState) (v : Str), (stepUI (.setSearch v) s).currentPage = 1) ∧
    (∀ (s : UIState) (v : Str), (stepUI (.setStatusFilter v) s).currentPage = 1) ∧
    (∀ (s : UIState) (v : Str), (stepUI (.setAppliedFilter v) s).currentPage = 1) ∧
    (∀ (s : UIState) (v : Nat), (stepUI (.setPageSize v) s).currentPage = 1) ∧
    (∀ s : UIState, (stepUI .pagePrev s).currentPage = max 1 (s.currentPage - 1)) ∧
    (∀ s : UIState,
      (stepUI .pageNext s).currentPage = min (totalPagesOf s) (s.currentPage + 1)) ∧
    (∀ s : UIState, (stepUI .pageNext s).searchTerm = s.searchTerm ∧
      (stepUI .pageNext s).statusFilter = s.statusFilter ∧
      (stepUI .pageNext s).appliedFilter = s.appliedFilter ∧
      (stepUI .pageNext s).pageSize = s.pageSize) ∧
    (∀ s : UIState, Reachable s →
      1 ≤ safePageOf s ∧ safePageOf s ≤ totalPagesOf s ∧
      totalPagesOf s =
        totalPages (filteredJobs s.jobs s.searchTerm s.statusFilter s.appliedFilter).length
          s.pageSize) := by
  refine ⟨rfl, fun _ _ => rfl, fun _ _ => rfl, fun _ _ => rfl, fun _ _ => rfl,
    fun _ => rfl, fun _ => rfl, fun _ => ⟨rfl, rfl, rfl, rfl⟩, fun s hs => ?_⟩
  refine ⟨le_min (reachable_page_pos s hs) (one_le_totalPagesOf s), min_le_right _ _, ?_⟩
  unfold totalPagesOf totalItemsOf uiSorted sortedJobs
  rw [List.length_mergeSort]

/-- Witness for C9 at the initial (reachable) state. -/
theorem safePage_in_range_witness :
    1 ≤ safePageOf initialUIState ∧
    safePageOf initialUIState ≤ totalPagesOf initialUIState ∧
    totalPagesOf initialUIState =
      totalPages (filteredJobs initialUIState.jobs initialUIState.searchTerm
        initialUIState.statusFilter initialUIState.appliedFilter).length
        initialUIState.pageSize :=
  safePage_in_range.2.2.2.2.2.2.2.2 initialUIState Reachable.init

/-- C2: a record is kept by the filter stage exactly when it is in the
input collection and satisfies the spec's keep condition — the trimmed
lowercase search term is empty or a substring of one of the four lowercase
fields (absent fields read as empty), the status filter is `all` or equals
the record's status (defaulting to `not_applied`), and the applied filter
is `all`, or `applied` with the flag set, or `not_applied_only` with the
flag clear.  The applied filter ranges over the three values its select
offers. -/
theorem filteredJobs_mem_iff (jobs : List Job)
    (searchTerm statusFilter appliedFilter : Str) (job : Job)
    (hA : appliedFilter = "all".data ∨ appliedFilter = "applied".data ∨
      appliedFilter = "not_applied_only".data) :
    job ∈ filteredJobs jobs searchTerm statusFilter appliedFilter ↔
      job ∈ jobs ∧ specFilterKeeps searchTerm statusFilter appliedFilter job := by
  rw [filteredJobs, List.mem_filter]
  refine and_congr_right fun _ => ?_
  unfold jobMatches specFilterKeeps
  rcases hA with h | h | h <;> subst h <;>
    simp [strIncludes, Bool.and_eq_true, Bool.or_eq_true, beq_iff_eq,
      decide_eq_true_eq, List.isEmpty_iff, Bool.not_eq_true',
      show ("all".data : Str) ≠ "applied".data by decide,
      show ("all".data : Str) ≠ "not_applied_only".data by decide,
      show ("applied".data : Str) ≠ "all".data by decide,
      show ("applied".data : Str) ≠ "not_applied_only".data by decide,
      show ("not_applied_only".data : Str) ≠ "all".data by decide,
      show ("not_applied_only".data : Str) ≠ "applied".data by decide] <;>
    tauto

/-- Witness for C2: with an empty search and both filters at `all`, a
concrete record in the collection passes the filter. -/
theorem filteredJobs_mem_iff_witness :
    jobA ∈ filteredJobs [jobA, jobB] [] "all".data "all".data :=
  (filteredJobs_mem_iff [jobA, jobB] [] "all".data "all".data jobA
    (Or.inl rfl)).mpr ⟨by decide, by unfold specFilterKeeps; decide⟩

/-- The concatenation of the slices of pages `1..k` is the first
`k * pageSize` elements of the collection. -/
theorem flatten_slices (l : List Job) (ps : Nat) :
    ∀ k : Nat,
      ((List.range k).map fun i => visibleSlice l (i + 1) ps).flatten = l.take (k * ps)
  | 0 => by simp
  | k + 1 => by
      rw [List.range_succ, List.map_append, List.flatten_append, flatten_slices l ps k]
      simp only [List.map_cons, List.map_nil, List.flatten_cons, List.flatten_nil,
        List.append_nil, visibleSlice, Nat.add_sub_cancel]
      rw [List.take_drop]
      have h : l.take (k * ps) = (l.take (k * ps + ps)).take (k * ps) := by
        rw [List.take_take, Nat.min_eq_left (Nat.le_add_right _ _)]
      rw [h, List.take_append_drop, Nat.succ_mul]

/-- For a positive divisor, `(n + ps - 1) / ps` is ceiling division. -/
theorem add_pred_div_eq_ceil (n ps : Nat) (hps : 0 < ps) :
    (n + ps - 1) / ps = ceilDivSpec n ps := by
  have h0 := Nat.div_add_mod n ps
  have hr : n % ps < ps := Nat.mod_lt _ hps
  unfold ceilDivSpec
  by_cases h : n % ps = 0
  · rw [if_pos h]
    have hn : n + ps - 1 = (ps - 1) + ps * (n / ps) := by omega
    rw [hn, Nat.add_mul_div_left _ _ hps, Nat.div_eq_of_lt (by omega), Nat.zero_add]
  · rw [if_neg h]
    have hn : n + ps - 1 = (n % ps - 1) + ps * (n / ps + 1) := by
      have hx : ps * (n / ps + 1) = ps * (n / ps) + ps := by ring
      omega
    rw [hn, Nat.add_mul_div_left _ _ hps, Nat.div_eq_of_lt (by omega), Nat.zero_add]

/-- The page count times the page size covers the whole collection. -/
theorem length_le_totalPages_mul (n ps : Nat) (hps : 0 < ps) :
    n ≤ totalPages n ps * ps := by
  have h1 := Nat.div_add_mod (n + ps - 1) ps
  have h2 : (n + ps - 1) % ps < ps := Nat.mod_lt _ hps
  have h3 : n ≤ ((n + ps - 1) / ps) * ps := by
    rcases Nat.eq_zero_or_pos n with hn | hn
    · simp [hn]
    · rw [Nat.mul_comm]
      omega
  calc n ≤ ((n + ps - 1) / ps) * ps := h3
    _ ≤ totalPages n ps * ps := Nat.mul_le_mul_right ps (le_max_right 1 _)

/-- C3: for each of the three offered page sizes, the computed page count
is `max(1, ceil(n / pageSize))`, and the page slices for pages 1 through
the page count concatenate in order back to the collection — hence they
are pairwise disjoint, ordered, and their lengths sum to `n`. -/
theorem pagination_partition (l : List Job) (ps : Nat)
    (hps : ps = 10 ∨ ps = 20 ∨ ps = 50) :
    totalPages l.length ps = max 1 (ceilDivSpec l.length ps) ∧
    ((List.range (totalPages l.length ps)).map fun i =>
        visibleSlice l (i + 1) ps).flatten = l ∧
    ((List.range (totalPages l.length ps)).map fun i =>
        (visibleSlice l (i + 1) ps).length).sum = l.length := by
  have hpos : 0 < ps := by rcases hps with h | h | h <;> omega
  have h1 : totalPages l.length ps = max 1 (ceilDivSpec l.length ps) := by
    unfold totalPages
    rw [add_pred_div_eq_ceil _ _ hpos]
  have h2 : ((List.range (totalPages l.length ps)).map fun i =>
      visibleSlice l (i + 1) ps).flatten = l := by
    rw [flatten_slices]
    exact List.take_of_length_le (length_le_totalPages_mul _ _ hpos)
  refine ⟨h1, h2, ?_⟩
  have h3 := congrArg List.length h2
  rw [List.length_flatten, List.map_map] at h3
  simpa [Function.comp] using h3

/-- Witness for C3 at a concrete two-element collection and page size
10. -/
theorem pagination_partition_witness :
    totalPages ([jobA, jobB] : List Job).length 10 =
      max 1 (ceilDivSpec ([jobA, jobB] : List Job).length 10) ∧
    ((List.range (totalPages ([jobA, jobB] : List Job).length 10)).map fun i =>
        visibleSlice [jobA, jobB] (i + 1) 10).flatten = [jobA, jobB] ∧
    ((List.range (totalPages ([jobA, jobB] : List Job).length 10)).map fun i =>
        (visibleSlice [jobA, jobB] (i + 1) 10).length).sum =
      ([jobA, jobB] : List Job).length :=
  pagination_partition [jobA, jobB] 10 (Or.inl rfl)

/-- Lexicographic comparison of a string with itself is zero. -/
theorem lexCompare_self : ∀ s : Str, lexCompare s s = 0
  | [] => rfl
  | a :: as => by simp [lexCompare, lexCompare_self as]

/-- Lexicographic comparison is antisymmetric under argument swap. -/
theorem lexCompare_swap : ∀ s t : Str, lexCompare t s = -lexCompare s t
  | [], [] => rfl
  | [], _ :: _ => rfl
  | _ :: _, [] => rfl
  | a :: as, b :: bs => by
      rcases lt_trichotomy a b with hlt | heq | hgt
      · have h : a ≠ b := ne_of_lt hlt
        simp [lexCompare, h, Ne.symm h, hlt, not_lt.mpr (le_of_lt hlt)]
      · subst heq
        simp [lexCompare, lexCompare_swap as bs]
      · have h : b ≠ a := ne_of_lt hgt
        simp [lexCompare, h, Ne.symm h, hgt, not_lt.mpr (le_of_lt hgt)]

/-- Transitivity of nonpositive lexicographic comparison. -/
theorem lexCompare_trans : ∀ s t u : Str,
    lexCompare s t ≤ 0 → lexCompare t u ≤ 0 → lexCompare s u ≤ 0
  | [], _, [], _, _ => by simp [lexCompare]
  | [], _, _ :: _, _, _ => by simp [lexCompare]
  | _ :: _, [], _, h1, _ => by simp [lexCompare] at h1
  | _ :: _, _ :: _, [], _, h2 => by simp [lexCompare] at h2
  | a :: as, b :: bs, c :: cs, h1, h2 => by
      simp only [lexCompare] at h1 h2 ⊢
      by_cases hab : a = b
      · subst hab
        rw [if_pos rfl] at h1
        by_cases hac : a = c
        · subst hac
          rw [if_pos rfl] at h2 ⊢
          exact lexCompare_trans as bs cs h1 h2
        · rw [if_neg hac] at h2 ⊢
          exact h2
      · rw [if_neg hab] at h1
        have hab' : a < b := by
          by_contra hnot
          rw [if_neg hnot] at h1
          omega
        by_cases hbc : b = c
        · subst hbc
          rw [if_neg hab, if_pos hab']
          omega
        · rw [if_neg hbc] at h2
          have hbc' : b < c := by
            by_contra hnot
            rw [if_neg hnot] at h2
            omega
          have hac : a < c := lt_trans hab' hbc'
          rw [if_neg (ne_of_lt hac), if_pos hac]
          omega

/-- The base comparison is antisymmetric under argument swap. -/
theorem cmpBase_swap (v w : SortValue) : cmpBase w v = -cmpBase v w := by
  unfold cmpBase
  by_cases h : v = w
  · subst h
    simp
  · rw [if_neg h, if_neg (Ne.symm h)]
    cases v with
    | num x =>
        cases w with
        | num y =>
            show (y - x : Int) = -(x - y)
            ring
        | str t => exact lexCompare_swap _ _
    | str s =>
        cases w with
        | num y => exact lexCompare_swap _ _
        | str t => exact lexCompare_swap _ _

/-- The base comparison of number values is plain subtraction. -/
theorem cmpBase_num_eq (x y : Int) : cmpBase (.num x) (.num y) = x - y := by
  unfold cmpBase
  by_cases h : (SortValue.num x) = (SortValue.num y)
  · rw [if_pos h]
    simp only [SortValue.num.injEq] at h
    omega
  · rw [if_neg h]

/-- The base comparison of string values is lexicographic comparison. -/
theorem cmpBase_str_eq (s t : Str) : cmpBase (.str s) (.str t) = lexCompare s t := by
  unfold cmpBase
  by_cases h : (SortValue.str s) = (SortValue.str t)
  · rw [if_pos h]
    simp only [SortValue.str.injEq] at h
    subst h
    exact (lexCompare_self s).symm
  · rw [if_neg h]
    rfl

/-- The comparator is the direction sign applied to the base comparison of
the two sort values. -/
theorem compareJobs_eq (k d : Str) (a b : Job) :
    compareJobs k d a b =
      if d == "asc".data then cmpBase (getSortValue k a) (getSortValue k b)
      else -cmpBase (getSortValue k a) (getSortValue k b) := by
  unfold compareJobs cmpBase
  by_cases h : getSortValue k a = getSortValue k b
  · rw [if_pos h, if_pos h]
    split <;> simp
  · rw [if_neg h, if_neg h]

/-- For a fixed sort key, compared sort values are homogeneous: all
numbers (the `applied` key) or all strings (every other key). -/
theorem getSortValue_homog (k : Str) :
    (∀ a : Job, ∃ n, getSortValue k a = .num n) ∨
    (∀ a : Job, ∃ s, getSortValue k a = .str s) := by
  by_cases h1 : (k == "company".data) = true
  · exact Or.inr fun a => ⟨lowerStr (a.company.getD []), by simp [getSortValue, h1]⟩
  · by_cases h2 : (k == "position".data) = true
    · exact Or.inr fun a => ⟨lowerStr (a.position.getD []), by simp [getSortValue, h1, h2]⟩
    · by_cases h3 : (k == "status".data) = true
      · exact Or.inr fun a =>
          ⟨lowerStr (a.status.getD "not_applied".data), by simp [getSortValue, h1, h2, h3]⟩
      · by_cases h4 : (k == "applied".data) = true
        · exact Or.inl fun a =>
            ⟨if a.applied then 1 else 0, by simp [getSortValue, h1, h2, h3, h4]⟩
        · exact Or.inr fun a =>
            ⟨a.date_found.getD [], by simp [getSortValue, h1, h2, h3, h4]⟩

/-- Totality of the boolean order induced by the comparator. -/
theorem jobLe_total (k d : Str) (a b : Job) : jobLe k d a b || jobLe k d b a := by
  unfold jobLe
  rw [Bool.or_eq_true, decide_eq_true_eq, decide_eq_true_eq,
    compareJobs_eq, compareJobs_eq, cmpBase_swap (getSortValue k a) (getSortValue k b)]
  by_cases hd : (d == "asc".data) = true
  · rw [if_pos hd, if_pos hd]
    omega
  · rw [if_neg hd, if_neg hd]
    omega

/-- Transitivity of the boolean order induced by the comparator. -/
theorem jobLe_trans (k d : Str) (a b c : Job) :
    jobLe k d a b → jobLe k d b c → jobLe k d a c := by
  unfold jobLe
  simp only [decide_eq_true_eq]
  rw [compareJobs_eq, compareJobs_eq, compareJobs_eq]
  rcases getSortValue_homog k with h | h
  · obtain ⟨x, hx⟩ := h a
    obtain ⟨y, hy⟩ := h b
    obtain ⟨z, hz⟩ := h c
    rw [hx, hy, hz, cmpBase_num_eq, cmpBase_num_eq, cmpBase_num_eq]
    by_cases hd : (d == "asc".data) = true
    · rw [if_pos hd, if_pos hd, if_pos hd]
      omega
    · rw [if_neg hd, if_neg hd, if_neg hd]
      omega
  · obtain ⟨x, hx⟩ := h a
    obtain ⟨y, hy⟩ := h b
    obtain ⟨z, hz⟩ := h c
    rw [hx, hy, hz, cmpBase_str_eq, cmpBase_str_eq, cmpBase_str_eq]
    by_cases hd : (d == "asc".data) = true
    · rw [if_pos hd, if_pos hd, if_pos hd]
      exact lexCompare_trans x y z
    · rw [if_neg hd, if_neg hd, if_neg hd]
      intro h1 h2
      have e1 : lexCompare y x ≤ 0 := by
        rw [lexCompare_swap x y]
        omega
      have e2 : lexCompare z y ≤ 0 := by
        rw [lexCompare_swap y z]
        omega
      have e3 := lexCompare_trans z y x e2 e1
      have e4 := lexCompare_swap x z
      omega

/-- C4: the sort stage.  (1) It is stable: two records whose sort values
are equal keep the relative order they had in the filtered input.  (2)–(4)
The text keys `company`, `position` and `status` compare as
case-insensitive lexicographic string comparisons.  (5) The `applied` key
compares numerically as 0/1.  (6) The `date_found` key compares as the raw
ISO-8601 date string.  (7) Flipping the direction from `asc` to `desc`
negates the comparator result. -/
theorem sort_stage_spec :
    (∀ (jobs : List Job) (st sf af k d : Str) (a b : Job),
      List.Sublist [a, b] (filteredJobs jobs st sf af) →
      getSortValue k a = getSortValue k b →
      List.Sublist [a, b] (sortedJobs jobs st sf af k d)) ∧
    (∀ a b : Job, compareJobs "company".data "asc".data a b =
      lexCompare (lowerStr (a.company.getD [])) (lowerStr (b.company.getD []))) ∧
    (∀ a b : Job, compareJobs "position".data "asc".data a b =
      lexCompare (lowerStr (a.position.getD [])) (lowerStr (b.position.getD []))) ∧
    (∀ a b : Job, compareJobs "status".data "asc".data a b =
      lexCompare (lowerStr (a.status.getD "not_applied".data))
        (lowerStr (b.status.getD "not_applied".data))) ∧
    (∀ a b : Job, compareJobs "applied".data "asc".data a b =
      (if a.applied then (1 : Int) else 0) - (if b.applied then (1 : Int) else 0)) ∧
    (∀ a b : Job, compareJobs "date_found".data "asc".data a b =
      lexCompare (a.date_found.getD []) (b.date_found.getD [])) ∧
    (∀ (k : Str) (a b : Job),
      compareJobs k "desc".data a b = -compareJobs k "asc".data a b) := by
  refine ⟨?_, ?_, ?_, ?_, ?_, ?_, ?_⟩
  · intro jobs st sf af k d a b hsub heq
    unfold sortedJobs
    refine List.pair_sublist_mergeSort (jobLe_trans k d) (jobLe_total k d) ?_ hsub
    unfold jobLe
    rw [decide_eq_true_eq]
    unfold compareJobs
    rw [if_pos heq]
  · intro a b
    rw [compareJobs_eq,
      if_pos (show (("asc".data : Str) == "asc".data) = true from rfl),
      show getSortValue "company".data a = .str (lowerStr (a.company.getD [])) from rfl,
      show getSortValue "company".data b = .str (lowerStr (b.company.getD [])) from rfl,
      cmpBase_str_eq]
  · intro a b
    rw [compareJobs_eq,
      if_pos (show (("asc".data : Str) == "asc".data) = true from rfl),
      show getSortValue "position".data a = .str (lowerStr (a.position.getD [])) from rfl,
      show getSortValue "position".data b = .str (lowerStr (b.position.getD [])) from rfl,
      cmpBase_str_eq]
  · intro a b
    rw [compareJobs_eq,
      if_pos (show (("asc".data : Str) == "asc".data) = true from rfl),
      show getSortValue "status".data a =
        .str (lowerStr (a.status.getD "not_applied".data)) from rfl,
      show getSortValue "status".data b =
        .str (lowerStr (b.status.getD "not_applied".data)) from rfl,
      cmpBase_str_eq]
  · intro a b
    rw [compareJobs_eq,
      if_pos (show (("asc".data : Str) == "asc".data) = true from rfl),
      show getSortValue "applied".data a = .num (if a.applied then 1 else 0) from rfl,
      show getSortValue "applied".data b = .num (if b.applied then 1 else 0) from rfl,
      cmpBase_num_eq]
  · intro a b
    rw [compareJobs_eq,
      if_pos (show (("asc".data : Str) == "asc".data) = true from rfl),
      show getSortValue "date_found".data a = .str (a.date_found.getD []) from rfl,
      show getSortValue "date_found".data b = .str (b.date_found.getD []) from rfl,
      cmpBase_str_eq]
  · intro k a b
    rw [compareJobs_eq, compareJobs_eq,
      if_pos (show (("asc".data : Str) == "asc".data) = true from rfl),
      if_neg (by decide : ¬ ((("desc".data : Str) == "asc".data) = true))]

/-- Witness for C4's stability clause: two concrete records with equal
`company` sort values (`Acme` and `acme` both lower to `acme`) keep their
order through the sort. -/
theorem sort_stage_spec_witness :
    List.Sublist [jobA, jobB]
      (sortedJobs [jobA, jobB] [] "all".data "all".data "company".data "asc".data) :=
  sort_stage_spec.1 [jobA, jobB] [] "all".data "all".data "company".data "asc".data
    jobA jobB
    (by rw [(by decide :
        filteredJobs [jobA, jobB] [] "all".data "all".data = [jobA, jobB])])
    (by decide)
